import Mathlib

/-!
Shallow embedding of the IEA-Data pipeline scripts
(`extract_demo.py`, `clean_data.py`, `tag_to_id_converter.py`,
`json_to_csv_for_pg.py`) and proofs about their field-normalization,
tag-resolution and flattening logic.

Strings model Python `str`; JSON dict fields that may be absent are
modelled as `Option`; machine-independent Python `int` is `Int`/`Nat`.
-/

namespace IEAData

/-! ## String helpers shared by the scripts -/

/-- Embeds Python `.strip()` on ASCII input: drop leading and trailing
whitespace characters. -/
def pyStrip (s : String) : String :=
  String.mk (((s.data.dropWhile Char.isWhitespace).reverse.dropWhile
    Char.isWhitespace).reverse)

/-- Embeds Python `c in s` for a single character `c`. -/
def charContains (s : String) (c : Char) : Bool :=
  s.data.contains c

/-- Does `cs` start with `pat`? -/
def listStartsWith : List Char → List Char → Bool
  | [], _ => true
  | _ :: _, [] => false
  | p :: ps, c :: cs => p == c && listStartsWith ps cs

/-- Does `pat` occur as a contiguous run inside the character list? -/
def listSubstrSearch (pat : List Char) : List Char → Bool
  | [] => pat.isEmpty
  | c :: rest => listStartsWith pat (c :: rest) || listSubstrSearch pat rest

/-- Boolean substring containment, embedding Python's `pat in s`. -/
def containsSubstr (s pat : String) : Bool :=
  listSubstrSearch pat.data s.data

/-- Split a character list at a separator, keeping empty chunks. -/
def splitCharAux (sep : Char) : List Char → List Char → List (List Char)
  | [], acc => [acc.reverse]
  | c :: rest, acc =>
    if c == sep then acc.reverse :: splitCharAux sep rest []
    else splitCharAux sep rest (c :: acc)

/-- Embeds Python `s.split(sep)` for a one-character separator. -/
def splitOnChar (sep : Char) (s : String) : List String :=
  (splitCharAux sep s.data []).map String.mk


/-- Parse a nonempty all-digit character run to a `Nat`; `none` otherwise. -/
def digitsToNat : List Char → Option Nat
  | [] => none
  | cs =>
    if cs.all Char.isDigit then
      some (cs.foldl (fun acc c => acc * 10 + (c.toNat - '0'.toNat)) 0)
    else none

/-- Embeds Python `int(s)` on ASCII input: surrounding whitespace stripped,
optional sign, then decimal digits (underscore separators are not modelled). -/
def pyInt (s : String) : Option Int :=
  match (pyStrip s).data with
  | '+' :: rest => (digitsToNat rest).map Int.ofNat
  | '-' :: rest => (digitsToNat rest).map (fun n => -(n : Int))
  | cs => (digitsToNat cs).map Int.ofNat

/-- Everything after the first `'.'` of `s`, embedding `s.split(".", 1)[1]`. -/
def afterFirstDot (s : String) : String :=
  String.mk ((s.data.dropWhile (fun c => c ≠ '.')).drop 1)

/-! ## Flattener (`scripts/json_to_csv_for_pg.py`) -/

/-- Embeds `parse_sub_id_to_int`: for values like `"8.2"` take the part after
the dot; else try `int(s)`; else keep only the digits, defaulting to 0. -/
def parse_sub_id_to_int (v : String) : Int :=
  let s := pyStrip v
  let afterDot : Option Int :=
    if charContains s '.' then pyInt (afterFirstDot s) else none
  match afterDot with
  | some n => n
  | none =>
    match pyInt s with
    | some n => n
    | none =>
      match digitsToNat (s.data.filter Char.isDigit) with
      | some n => (n : Int)
      | none => 0

/-- A resolved tag entry as read from `tag_data.json`.  `tag_id` is `none`
when the key is missing or `int(tag_id)` fails; `sub_id` holds the raw
subcategory values as they appear in the JSON. -/
structure TagEntry where
  tag_id : Option Int
  sub_id : List String
deriving DecidableEq

/-- A profile as the flattener reads it (only the fields it uses). -/
structure PgProfile where
  orcid : Option String
  tags : List TagEntry
deriving DecidableEq

/-- Embeds `extract_orcid`. -/
def extract_orcid (p : PgProfile) : String :=
  pyStrip (p.orcid.getD "")

/-- Rows of `tags.csv` that `process` writes for one profile.  Note the
source assigns `sub_int = sub`, writing the raw sub value verbatim;
`parse_sub_id_to_int` is never applied there. -/
def tagRowsOfProfile (orcid : String) (tags : List TagEntry) :
    List (String × Int × String) :=
  (tags.map (fun te =>
    match te.tag_id with
    | none => []
    | some tid => te.sub_id.map (fun sub => (orcid, tid, sub)))).flatten

/-- All data rows of `tags.csv` written by `process`. -/
def tags_csv_rows (data : List (String × List PgProfile)) :
    List (String × Int × String) :=
  (data.map (fun src =>
    (src.2.map (fun p =>
      let o := extract_orcid p
      if o = "" then [] else tagRowsOfProfile o p.tags)).flatten)).flatten

/-! ## Cleaner (`scripts/clean_data.py`) -/

/-- A raw JSON field value as the cleaner's string cleaners receive it
(`Union[str, List, None]`); list elements are modelled as strings. -/
inductive FieldVal where
  | vnone : FieldVal
  | vstr : String → FieldVal
  | vlist : List String → FieldVal
deriving DecidableEq

/-- Embeds `clean_string_field`: `None` becomes `""`, a list is filtered by
truthiness, its items stripped and joined with `"; "`, a string is stripped. -/
def clean_string_field : FieldVal → String
  | .vnone => ""
  | .vlist xs => String.intercalate "; " ((xs.filter (fun x => x ≠ "")).map pyStrip)
  | .vstr s => pyStrip s

/-- Embeds `clean_telephone_field`; with list elements modelled as strings
the `isinstance(phone, str)` test always passes, leaving the same
filter-strip-join as the string cleaner. -/
def clean_telephone_field : FieldVal → String
  | .vnone => ""
  | .vlist xs => String.intercalate "; " ((xs.filter (fun x => x ≠ "")).map pyStrip)
  | .vstr s => pyStrip s

/-- Embeds `clean_email_field`: strip, then accept only when the value
contains `'@'` and the part after the final `'@'` contains `'.'`. -/
def clean_email_field (value : Option String) : String :=
  match value with
  | none => ""
  | some v =>
    let email := pyStrip v
    if charContains email '@' && charContains ((splitOnChar '@' email).getLastD "") '.'
    then email else ""

/-- Does the character list match `\d{4}-\d{4}-\d{4}-\d{3}[\dX]` exactly? -/
def isOrcidShape : List Char → Bool
  | [a1, a2, a3, a4, h1, b1, b2, b3, b4, h2, c1, c2, c3, c4, h3, d1, d2, d3, d4] =>
    a1.isDigit && a2.isDigit && a3.isDigit && a4.isDigit && h1 == '-' &&
    b1.isDigit && b2.isDigit && b3.isDigit && b4.isDigit && h2 == '-' &&
    c1.isDigit && c2.isDigit && c3.isDigit && c4.isDigit && h3 == '-' &&
    d1.isDigit && d2.isDigit && d3.isDigit && (d4.isDigit || d4 == 'X')
  | _ => false

/-- Leftmost match of the ORCID pattern, as `re.search` finds it. -/
def searchOrcid : List Char → Option String
  | [] => none
  | c :: rest =>
    if isOrcidShape ((c :: rest).take 19) then some (String.mk ((c :: rest).take 19))
    else searchOrcid rest

/-- Embeds `clean_orcid_field`.  Returns the cleaned value and the
`is_real_orcid` flag. -/
def clean_orcid_field (value : Option String) (email_value : String)
    (use_email_fallback : Bool) : String × Bool :=
  let orcid := pyStrip (value.getD "")
  let fallback : String × Bool :=
    if use_email_fallback && email_value != "" then (pyStrip email_value, false)
    else ("", false)
  if containsSubstr orcid "orcid.org" then
    match searchOrcid orcid.data with
    | some m => (m, true)
    | none => fallback
  else if isOrcidShape orcid.data then (orcid, true)
  else fallback

/-- Embeds `clean_tag_field`; `none` models a `None` (or non-list) value.
A group is kept when it has at least two elements whose first two entries
are nonempty after stripping. -/
def clean_tag_field (value : Option (List (List String))) : List (List String) :=
  match value with
  | none => []
  | some gs =>
    gs.filterMap (fun g =>
      match g with
      | a :: b :: _ =>
        let category := pyStrip a
        let subcategories := pyStrip b
        if category != "" && subcategories != "" then some [category, subcategories]
        else none
      | _ => none)

/-- Embeds `normalize_university_key`: `re.sub(r"\s+tag$", "", name).strip()`. -/
def normalize_university_key (name : String) : String :=
  match name.data.reverse with
  | 'g' :: 'a' :: 't' :: c :: rest =>
    if c.isWhitespace then
      pyStrip (String.mk (((c :: rest).dropWhile Char.isWhitespace).reverse))
    else pyStrip name
  | _ => pyStrip name

/-- Embeds `.replace("\n", " ")`; the pattern is a single character, so the
replacement is a character map. -/
def replaceNewlines (s : String) : String :=
  String.mk (s.data.map (fun c => if c = '\n' then ' ' else c))

/-- A raw researcher record as the cleaner reads it; `none` means the key is
absent from the source dict.  For `email` and `orcid` the inner option is a
present-but-`None` value; for `tag` it is a `None`/non-list value. -/
structure RawProfile where
  website : Option FieldVal := none
  full_name : Option FieldVal := none
  title : Option FieldVal := none
  org_unit : Option FieldVal := none
  telephone : Option FieldVal := none
  email : Option (Option String) := none
  brief_introduction : Option FieldVal := none
  orcid : Option (Option String) := none
  tag : Option (Option (List (List String))) := none
deriving DecidableEq

/-- The fixed output schema (`standard_fields` with `brief_introduction`
renamed to `introduction`). -/
structure CleanProfile where
  website : String
  full_name : String
  title : String
  org_unit : String
  telephone : String
  email : String
  introduction : String
  orcid : String
  tag : List (List String)
deriving DecidableEq

/-- Embeds `standardize_researcher_profile`: defaults for absent keys,
per-field cleaners, newline replacement on `introduction` and `org_unit`,
then ORCID handling using the already-cleaned email. -/
def standardize_researcher_profile (p : RawProfile) (use_email_fallback : Bool) :
    CleanProfile × Bool :=
  let emailv : String :=
    match p.email with
    | none => ""
    | some v => clean_email_field v
  let oc := clean_orcid_field (p.orcid.getD none) emailv use_email_fallback
  ({ website := match p.website with | none => "" | some v => clean_string_field v
     full_name := match p.full_name with | none => "" | some v => clean_string_field v
     title := match p.title with | none => "" | some v => clean_string_field v
     org_unit := match p.org_unit with
       | none => ""
       | some v => replaceNewlines (clean_string_field v)
     telephone := match p.telephone with | none => "" | some v => clean_telephone_field v
     email := emailv
     introduction := match p.brief_introduction with
       | none => ""
       | some v => replaceNewlines (clean_string_field v)
     orcid := oc.1
     tag := match p.tag with | none => [] | some v => clean_tag_field v },
   oc.2)

/-- One value of the combined input document (`extracted_data.json`);
`extracted_items = none` models an entry without that key. -/
structure UniversityData where
  total_items : Int
  extracted_items : Option (List RawProfile)
deriving DecidableEq

/-- Profiles kept for one university: the inner loop of
`clean_and_standardize_data`, including its skip policy. -/
def cleanUniversityProfiles (if_ignore_no_orcid : Bool) (items : List RawProfile) :
    List CleanProfile :=
  items.filterMap (fun p =>
    let r := standardize_researcher_profile p (!if_ignore_no_orcid)
    if (if if_ignore_no_orcid then r.2 else r.1.orcid != "") then some r.1 else none)

/-- Per-group step of `clean_and_standardize_data`: skip groups without
`extracted_items`, clean the profiles, keep the group only when a profile
survives, emitting it under the normalized key. -/
def processGroup (if_ignore_no_orcid : Bool) (entry : String × UniversityData) :
    Option (String × Int × List CleanProfile) :=
  match entry.2.extracted_items with
  | none => none
  | some items =>
    let profs := cleanUniversityProfiles if_ignore_no_orcid items
    if profs.length > 0 then
      some (normalize_university_key entry.1, entry.2.total_items, profs)
    else none

/-- Embeds Python dict assignment `m[k] = v`: an existing key is updated in
place, keeping its insertion position; a new key is appended at the end. -/
def dictInsert {β : Type} (m : List (String × β)) (k : String) (v : β) :
    List (String × β) :=
  match m with
  | [] => [(k, v)]
  | (k', v') :: rest =>
    if k' = k then (k', v) :: rest else (k', v') :: dictInsert rest k v

/-- One iteration of the document-level loop of `clean_and_standardize_data`:
a skipped group leaves the output dict unchanged, a kept group is assigned
under its normalized key, overwriting an earlier group with the same key. -/
def cleanInsertStep (if_ignore_no_orcid : Bool)
    (out : List (String × Int × List CleanProfile))
    (entry : String × UniversityData) : List (String × Int × List CleanProfile) :=
  match processGroup if_ignore_no_orcid entry with
  | none => out
  | some kv => dictInsert out kv.1 kv.2

/-- Embeds the document-level loop of `clean_and_standardize_data`; the
output dict is modelled as an insertion-ordered association list with
last-writer-wins assignment, matching Python dict semantics. -/
def clean_and_standardize_data (if_ignore_no_orcid : Bool)
    (data : List (String × UniversityData)) : List (String × Int × List CleanProfile) :=
  data.foldl (cleanInsertStep if_ignore_no_orcid) []

/-! ## Tag resolver (`scripts/tag_to_id_converter.py`) -/

/-- Name-to-id lookup in the index mappings (`category_map` /
`subcategory_map`), modelled as association lists. -/
def lookupName (m : List (String × Int)) (k : String) : Option Int :=
  (m.find? (fun kv => kv.1 == k)).map (fun kv => kv.2)

/-- Embeds `parse_subcategories`: comma-split, strip each token, drop the
empty ones. -/
def parse_subcategories (subcategory_string : String) : List String :=
  if subcategory_string = "" then []
  else
    ((splitOnChar ',' subcategory_string).map pyStrip).filter
      (fun s => s ≠ "")

/-- One resolved tag object `{tag_id, sub_id}`. -/
structure ConvertedTag where
  tag_id : Int
  sub_id : List Int
deriving DecidableEq

/-- Embeds `convert_tag_to_ids`: skip pairs that are not exactly two
elements, skip pairs with unknown category name, and keep only the known
subcategory names of the comma-split subcategory string. -/
def convert_tag_to_ids (category_map subcategory_map : List (String × Int))
    (tag_entry : List (List String)) : List ConvertedTag :=
  tag_entry.filterMap (fun pair =>
    match pair with
    | [c, s] =>
      match lookupName category_map (pyStrip c) with
      | none => none
      | some category_id =>
        some ⟨category_id, (parse_subcategories (pyStrip s)).filterMap
          (lookupName subcategory_map)⟩
    | _ => none)

/-- The email field of a profile as the resolver sees it: key absent,
present with value `None`, or present with a string. -/
inductive EmailField where
  | absent : EmailField
  | null : EmailField
  | str : String → EmailField
deriving DecidableEq

/-- A cleaned profile as the resolver reads it (the fields its control flow
uses); an absent `tag` key is modelled as the empty (falsy) list. -/
structure ResolverProfile where
  email : EmailField
  tag : List (List String)
deriving DecidableEq

/-- A profile after tag resolution: the `tag` field is replaced by `tags`. -/
structure ResolvedProfile where
  email : EmailField
  tags : List ConvertedTag
deriving DecidableEq

/-- Per-profile step of `process_researcher_data`: skip the profile iff the
email key is present and equal to `""` or `None`; convert a truthy tag list,
else attach an empty `tags` list. -/
def resolveProfile (category_map subcategory_map : List (String × Int))
    (p : ResolverProfile) : Option ResolvedProfile :=
  let keep : Bool :=
    match p.email with
    | .null => false
    | .str s => s != ""
    | .absent => true
  if keep then
    some ⟨p.email,
      if p.tag = [] then []
      else convert_tag_to_ids category_map subcategory_map p.tag⟩
  else none

/-- One value of the resolver's input document. -/
structure SourceData where
  total_items : Int
  profiles : List ResolverProfile
deriving DecidableEq

/-- One value of the resolver's output document. -/
structure ResolvedSource where
  total_items : Int
  profiles : List ResolvedProfile
deriving DecidableEq

/-- Embeds the document-level loop of `process_researcher_data`: resolve
each source's profiles and keep the source only when a profile survives. -/
def process_researcher_data (category_map subcategory_map : List (String × Int))
    (data : List (String × SourceData)) : List (String × ResolvedSource) :=
  data.filterMap (fun src =>
    let processed := src.2.profiles.filterMap
      (resolveProfile category_map subcategory_map)
    if processed.length > 0 then some (src.1, ⟨src.2.total_items, processed⟩)
    else none)

/-! ## Extractor (`scripts/extract_demo.py`) -/

/-- The fixed sample size `EXTRACT_COUNT`. -/
def EXTRACT_COUNT : Nat := 3

/-- One entry of the combined document produced by `extract_data`. -/
structure ExtractEntry (α : Type) where
  total_items : Nat
  extracted_items : List α
deriving DecidableEq

/-- Embeds the per-file step of `extract_data`; `none` models a JSON value
that is not a list. -/
def extractOne {α : Type} (data : Option (List α)) : ExtractEntry α :=
  match data with
  | none => ⟨0, []⟩
  | some l => ⟨l.length, l.take EXTRACT_COUNT⟩

/-! ## Theorems -/

/-- The ORCID cleaner on an absent/`None` value reduces to its fallback. -/
lemma clean_orcid_none_fallback (e : String) (fb : Bool) :
    clean_orcid_field none e fb
      = if fb && e != "" then (pyStrip e, false) else ("", false) := by
  rfl

/-- Newline replacement leaves no newline character in the result. -/
lemma not_mem_replaceNewlines (s : String) : '\n' ∉ (replaceNewlines s).data := by
  show '\n' ∉ s.data.map (fun c => if c = '\n' then ' ' else c)
  rw [List.mem_map]
  rintro ⟨c, -, hc⟩
  by_cases h : c = '\n'
  · rw [if_pos h] at hc
    exact absurd hc (by decide)
  · rw [if_neg h] at hc
    exact h hc

/-- C1: the flattener emits one tags-CSV row per subcategory value, but the
`sub_id` cell holds the raw value (`process` assigns `sub_int = sub`), not
the integer `parse_sub_id_to_int` would produce; the conversion rule itself
behaves exactly as stated ("8.2" ↦ 2, "5" ↦ 5, "abc3def" ↦ 3, "abc" ↦ 0),
yet is never applied, so the row for sub value "8.2" carries "8.2", not 2. -/
theorem c1_flattener_writes_raw_sub :
    tags_csv_rows [("U", [⟨some "0000-0001-2345-6789", [⟨some 1, ["8.2"]⟩]⟩])]
      = [("0000-0001-2345-6789", 1, "8.2")]
    ∧ parse_sub_id_to_int "8.2" = 2
    ∧ parse_sub_id_to_int "5" = 5
    ∧ parse_sub_id_to_int "abc3def" = 3
    ∧ parse_sub_id_to_int "abc" = 0
    ∧ ("8.2" : String) ≠ "2" := by
  refine ⟨rfl, rfl, rfl, rfl, rfl, by decide⟩

/-- C9: for every source value the extractor records, `total_items` is at
least the length of `extracted_items` (the first `EXTRACT_COUNT` elements). -/
theorem c9_extract_total_ge {α : Type} (data : Option (List α)) :
    (extractOne data).extracted_items.length ≤ (extractOne data).total_items := by
  cases data with
  | none => simp [extractOne]
  | some l =>
    simp only [extractOne, List.length_take]
    omega

/-- C8: email normalization returns the trimmed value exactly when it
contains `'@'` and the part after the final `'@'` contains `'.'`, and the
empty string otherwise; in particular "a@b.com" is kept and "not-an-email"
becomes "". -/
theorem c8_clean_email_rule :
    (∀ v : Option String,
      clean_email_field v =
        if charContains (pyStrip (v.getD "")) '@'
            && charContains ((splitOnChar '@' (pyStrip (v.getD ""))).getLastD "") '.'
        then pyStrip (v.getD "") else "")
    ∧ clean_email_field (some "a@b.com") = "a@b.com"
    ∧ clean_email_field (some "not-an-email") = "" := by
  refine ⟨fun v => ?_, rfl, rfl⟩
  cases v <;> rfl

/-- C4: the claim that wrong-arity pairs are dropped is false: the cleaner
keeps a pair with three elements (the test is `len(tag_group) >= 2`, not
`== 2`), truncating it to its first two trimmed entries. -/
theorem c4_arity_counterexample :
    clean_tag_field (some [["a", "b", "c"]]) = [["a", "b"]]
    ∧ ([["a", "b"]] : List (List String)) ≠ ([] : List (List String)) := by
  exact ⟨rfl, by decide⟩

/-- C4 (amended): a pair is dropped when it has fewer than two elements or
when either of its first two entries is empty after trimming; a pair with at
least two elements and nonempty trimmed entries is kept as its first two
entries, trimmed. -/
theorem c4_tag_cleaning_amended :
    clean_tag_field none = []
    ∧ (∀ rest, clean_tag_field (some ([] :: rest)) = clean_tag_field (some rest))
    ∧ (∀ a rest, clean_tag_field (some ([a] :: rest)) = clean_tag_field (some rest))
    ∧ (∀ a b t rest, (pyStrip a = "" ∨ pyStrip b = "") →
        clean_tag_field (some ((a :: b :: t) :: rest)) = clean_tag_field (some rest))
    ∧ (∀ a b t rest, pyStrip a ≠ "" → pyStrip b ≠ "" →
        clean_tag_field (some ((a :: b :: t) :: rest))
          = [pyStrip a, pyStrip b] :: clean_tag_field (some rest)) := by
  refine ⟨rfl, fun rest => rfl, fun a rest => rfl, ?_, ?_⟩
  · intro a b t rest h
    rcases h with h | h <;>
      simp [clean_tag_field, List.filterMap_cons, h]
  · intro a b t rest h1 h2
    simp [clean_tag_field, List.filterMap_cons, bne_iff_ne, h1, h2]

/-- C4 witness: the amended rule applied at concrete pairs. -/
theorem c4_tag_cleaning_witness :
    (pyStrip " " = "" ∨ pyStrip "b" = "")
    ∧ clean_tag_field (some [[" ", "b"]]) = clean_tag_field (some [])
    ∧ pyStrip "a" ≠ "" ∧ pyStrip "b" ≠ ""
    ∧ clean_tag_field (some [["a", "b"]]) = ["a", "b"] :: clean_tag_field (some []) := by
  refine ⟨Or.inl (by decide), ?_, by decide, by decide, ?_⟩
  · exact c4_tag_cleaning_amended.2.2.2.1 " " "b" [] [] (Or.inl (by decide))
  · have h := c4_tag_cleaning_amended.2.2.2.2 "a" "b" [] [] (by decide) (by decide)
    exact h.trans (by decide)

/-- C5: tag resolution: a pair that is not exactly two elements is skipped;
a pair with unknown category name is skipped; otherwise the category id is
emitted with the resolved ids of the comma-split, stripped subcategory
names, unknown names being dropped; the `["AI", "ML, NLP"]` example
resolves to `{tag_id := 3, sub_id := [1, 2]}`. -/
theorem c5_tag_resolution :
    convert_tag_to_ids [("AI", 3)] [("ML", 1), ("NLP", 2)] [["AI", "ML, NLP"]]
      = [⟨3, [1, 2]⟩]
    ∧ (∀ m₁ m₂ : List (String × Int), ∀ p rest, p.length ≠ 2 →
        convert_tag_to_ids m₁ m₂ (p :: rest) = convert_tag_to_ids m₁ m₂ rest)
    ∧ (∀ m₁ m₂ : List (String × Int), ∀ c s rest, lookupName m₁ (pyStrip c) = none →
        convert_tag_to_ids m₁ m₂ ([c, s] :: rest) = convert_tag_to_ids m₁ m₂ rest)
    ∧ (∀ m₁ m₂ : List (String × Int), ∀ c s rest cid,
        lookupName m₁ (pyStrip c) = some cid →
        convert_tag_to_ids m₁ m₂ ([c, s] :: rest)
          = ⟨cid, (parse_subcategories (pyStrip s)).filterMap (lookupName m₂)⟩
            :: convert_tag_to_ids m₁ m₂ rest)
    ∧ (∀ s, parse_subcategories s
        = ((splitOnChar ',' s).map pyStrip).filter (fun t => t ≠ "")) := by
  refine ⟨rfl, ?_, ?_, ?_, ?_⟩
  · intro m₁ m₂ p rest h
    rcases p with _ | ⟨c, _ | ⟨s, _ | ⟨x, t⟩⟩⟩
    · rfl
    · rfl
    · exact absurd rfl h
    · rfl
  · intro m₁ m₂ c s rest h
    simp [convert_tag_to_ids, List.filterMap_cons, h]
  · intro m₁ m₂ c s rest cid h
    simp [convert_tag_to_ids, List.filterMap_cons, h]
  · intro s
    by_cases h : s = ""
    · subst h; rfl
    · simp [parse_subcategories, h]

/-- C5 witness: the resolution rules applied at concrete inputs. -/
theorem c5_tag_resolution_witness :
    (["only-one"] : List String).length ≠ 2
    ∧ convert_tag_to_ids [("AI", 3)] [] [["only-one"]] = convert_tag_to_ids [("AI", 3)] [] []
    ∧ lookupName [("AI", 3)] (pyStrip "X") = none
    ∧ convert_tag_to_ids [("AI", 3)] [] [["X", "s"]] = convert_tag_to_ids [("AI", 3)] [] []
    ∧ lookupName [("AI", 3)] (pyStrip "AI") = some 3
    ∧ convert_tag_to_ids [("AI", 3)] [("ML", 1), ("NLP", 2)] [["AI", "ML, NLP"]]
        = ⟨3, (parse_subcategories (pyStrip "ML, NLP")).filterMap
            (lookupName [("ML", 1), ("NLP", 2)])⟩
          :: convert_tag_to_ids [("AI", 3)] [("ML", 1), ("NLP", 2)] [] := by
  refine ⟨by decide, ?_, by decide, ?_, by decide, ?_⟩
  · exact c5_tag_resolution.2.1 [("AI", 3)] [] ["only-one"] [] (by decide)
  · exact c5_tag_resolution.2.2.1 [("AI", 3)] [] "X" "s" [] (by decide)
  · exact c5_tag_resolution.2.2.2.1 [("AI", 3)] [("ML", 1), ("NLP", 2)]
      "AI" "ML, NLP" [] 3 (by decide)

/-- C3: the claim that profiles with a missing email key are dropped is
false: the resolver's skip test is `'email' in profile and (... == '' or
... is None)`, so a profile without the key is kept and appears in the
output. -/
theorem c3_missing_email_kept :
    (process_researcher_data [] [] [("U", ⟨0, [⟨EmailField.absent, []⟩]⟩)]).map
      (fun e => e.2.profiles.map ResolvedProfile.email) = [[EmailField.absent]] := by
  rfl

/-- C3 (amended): a profile is dropped by the resolver exactly when its
email key is present and holds the empty string or `None`; consequently no
output profile has a `None` or empty-string email, while profiles with an
absent email key are kept. -/
theorem c3_email_filter_amended (m₁ m₂ : List (String × Int))
    (data : List (String × SourceData)) :
    (∀ e ∈ process_researcher_data m₁ m₂ data, ∀ q ∈ e.2.profiles,
      q.email ≠ EmailField.null ∧ q.email ≠ EmailField.str "")
    ∧ (∀ p : ResolverProfile,
        resolveProfile m₁ m₂ p = none
          ↔ (p.email = EmailField.null ∨ p.email = EmailField.str "")) := by
  have hout : ∀ p q, resolveProfile m₁ m₂ p = some q →
      q.email ≠ EmailField.null ∧ q.email ≠ EmailField.str "" := by
    intro p q h
    rcases hp : p.email with _ | _ | s
    · simp only [resolveProfile, hp, if_pos] at h
      rcases Option.some.inj h with rfl
      simp
    · simp [resolveProfile, hp] at h
    · by_cases hs : s = ""
      · subst hs; simp [resolveProfile, hp] at h
      · simp only [resolveProfile, hp, bne_iff_ne, ne_eq, hs, not_false_iff,
          if_true, Option.some.injEq] at h
        rcases h with rfl
        simp [hp, hs]
  constructor
  · intro e he q hq
    obtain ⟨src, hsrc, hf⟩ := List.mem_filterMap.mp he
    simp only at hf
    split at hf
    · rcases Option.some.inj hf with rfl
      obtain ⟨p, hp, hrp⟩ := List.mem_filterMap.mp hq
      exact hout p q hrp
    · exact absurd hf (by simp)
  · intro p
    rcases hp : p.email with _ | _ | s
    · simp [resolveProfile, hp]
    · simp [resolveProfile, hp]
    · by_cases hs : s = ""
      · subst hs; simp [resolveProfile, hp]
      · simp [resolveProfile, hp, hs]

/-- C3 witness: the amended filter rule applied at concrete profiles. -/
theorem c3_email_filter_witness :
    ((⟨EmailField.str "a@b.com", []⟩ : ResolvedProfile).email ≠ EmailField.null
      ∧ (⟨EmailField.str "a@b.com", []⟩ : ResolvedProfile).email ≠ EmailField.str "")
    ∧ (resolveProfile [] [] ⟨EmailField.absent, []⟩ = none
        ↔ (EmailField.absent = EmailField.null
            ∨ EmailField.absent = EmailField.str "")) := by
  constructor
  · exact (c3_email_filter_amended [] []
      [("U", ⟨0, [⟨EmailField.str "a@b.com", []⟩]⟩)]).1
      ("U", ⟨0, [⟨EmailField.str "a@b.com", []⟩]⟩) (by decide)
      ⟨EmailField.str "a@b.com", []⟩ (by decide)
  · exact (c3_email_filter_amended [] [] []).2 ⟨EmailField.absent, []⟩

/-- A dict assignment puts the assigned entry in the dict. -/
lemma mem_dictInsert_self {β : Type} (m : List (String × β)) (k : String) (v : β) :
    (k, v) ∈ dictInsert m k v := by
  induction m with
  | nil => simp [dictInsert]
  | cons a rest ih =>
    rcases a with ⟨k', v'⟩
    by_cases h : k' = k
    · subst h
      simp [dictInsert]
    · simp [dictInsert, h, ih]

/-- A dict assignment under a different key keeps an existing entry. -/
lemma mem_dictInsert_of_mem {β : Type} {m : List (String × β)} {e : String × β}
    (k : String) (v : β) (hne : e.1 ≠ k) (hmem : e ∈ m) : e ∈ dictInsert m k v := by
  induction m with
  | nil => simp at hmem
  | cons a rest ih =>
    rcases a with ⟨k', v'⟩
    rcases List.mem_cons.mp hmem with h | h
    · subst h
      by_cases hk : k' = k
      · exact absurd hk hne
      · simp [dictInsert, hk]
    · by_cases hk : k' = k
      · subst hk
        simp only [dictInsert, if_pos rfl]
        exact List.mem_cons_of_mem _ h
      · simp only [dictInsert, if_neg hk]
        exact List.mem_cons_of_mem _ (ih h)

/-- Every entry of a dict after an assignment was already present or is the
assigned entry. -/
lemma mem_dictInsert_provenance {β : Type} {m : List (String × β)} {k : String}
    {v : β} {e : String × β} (h : e ∈ dictInsert m k v) : e ∈ m ∨ e = (k, v) := by
  induction m with
  | nil =>
    simp only [dictInsert, List.mem_singleton] at h
    exact Or.inr h
  | cons a rest ih =>
    rcases a with ⟨k', v'⟩
    by_cases hk : k' = k
    · subst hk
      simp only [dictInsert, if_pos rfl] at h
      rcases List.mem_cons.mp h with h | h
      · exact Or.inr h
      · exact Or.inl (List.mem_cons_of_mem _ h)
    · simp only [dictInsert, if_neg hk] at h
      rcases List.mem_cons.mp h with h | h
      · exact Or.inl (by simp [h])
      · rcases ih h with h' | h'
        · exact Or.inl (List.mem_cons_of_mem _ h')
        · exact Or.inr h'

/-- A group emitted by `processGroup` has a nonempty profile list. -/
lemma processGroup_some_ne_nil {ii : Bool} {entry : String × UniversityData}
    {e : String × Int × List CleanProfile} (h : processGroup ii entry = some e) :
    e.2.2 ≠ [] := by
  rcases hext : entry.2.extracted_items with _ | items
  · simp [processGroup, hext] at h
  · simp only [processGroup, hext] at h
    split at h
    · next hlen =>
      rcases Option.some.inj h with rfl
      simpa using List.ne_nil_of_length_pos hlen
    · simp at h

/-- Every entry of the folded output dict is the `processGroup` image of
some input group. -/
lemma mem_cleanFold {ii : Bool} {e : String × Int × List CleanProfile} :
    ∀ (data : List (String × UniversityData))
      (acc : List (String × Int × List CleanProfile)),
      e ∈ data.foldl (cleanInsertStep ii) acc →
      e ∈ acc ∨ ∃ k ud, (k, ud) ∈ data ∧ processGroup ii (k, ud) = some e := by
  intro data
  induction data with
  | nil =>
    intro acc h
    exact Or.inl h
  | cons x rest ih =>
    intro acc h
    rw [List.foldl_cons] at h
    rcases ih (cleanInsertStep ii acc x) h with h' | ⟨k, ud, hm, hp⟩
    · rcases hx : processGroup ii x with _ | kv
      · simp only [cleanInsertStep, hx] at h'
        exact Or.inl h'
      · simp only [cleanInsertStep, hx] at h'
        rcases mem_dictInsert_provenance h' with h'' | h''
        · exact Or.inl h''
        · refine Or.inr ⟨x.1, x.2, List.mem_cons_self _ _, ?_⟩
          rw [h'']
          exact hx
    · exact Or.inr ⟨k, ud, List.mem_cons_of_mem _ hm, hp⟩

/-- An output-dict entry survives the remaining insertions when no later
group resolves to its key. -/
lemma mem_cleanFold_preserved {ii : Bool} {e : String × Int × List CleanProfile} :
    ∀ (post : List (String × UniversityData))
      (acc : List (String × Int × List CleanProfile)),
      e ∈ acc →
      (∀ k' ud' v', (k', ud') ∈ post → processGroup ii (k', ud') ≠ some (e.1, v')) →
      e ∈ post.foldl (cleanInsertStep ii) acc := by
  intro post
  induction post with
  | nil =>
    intro acc h _
    exact h
  | cons x rest ih =>
    intro acc h hpost
    rw [List.foldl_cons]
    apply ih
    · rcases hx : processGroup ii x with _ | kv
      · simpa only [cleanInsertStep, hx] using h
      · simp only [cleanInsertStep, hx]
        have hne : e.1 ≠ kv.1 := by
          intro hkeq
          exact hpost x.1 x.2 kv.2 (List.mem_cons_self _ _) (by rw [hkeq]; exact hx)
        exact mem_dictInsert_of_mem _ _ hne h
    · intro k' ud' v' hm
      exact hpost k' ud' v' (List.mem_cons_of_mem _ hm)

/-- C2: ORCID normalization: a value containing "orcid.org" yields the
extracted pattern match with `is_real_orcid = true`; a full-pattern value is
returned unchanged; an invalid value yields the (stripped) nonempty cleaned
email in lenient mode with `is_real_orcid = false`, and `""` in strict mode,
where the record is then dropped by the cleaner's filter. -/
theorem c2_orcid_rule :
    (∀ e fb, clean_orcid_field (some "https://orcid.org/0000-0001-2345-6789") e fb
        = ("0000-0001-2345-6789", true))
    ∧ (∀ e fb, clean_orcid_field (some "0000-0001-2345-678X") e fb
        = ("0000-0001-2345-678X", true))
    ∧ clean_orcid_field (some "garbage") "x@y.com" true = ("x@y.com", false)
    ∧ clean_orcid_field (some "garbage") "x@y.com" false = ("", false)
    ∧ (∀ v e fb m, containsSubstr (pyStrip (v.getD "")) "orcid.org" = true →
        searchOrcid (pyStrip (v.getD "")).data = some m →
        clean_orcid_field v e fb = (m, true))
    ∧ (∀ v e fb, containsSubstr (pyStrip (v.getD "")) "orcid.org" = false →
        isOrcidShape (pyStrip (v.getD "")).data = true →
        clean_orcid_field v e fb = (pyStrip (v.getD ""), true))
    ∧ (∀ v e, containsSubstr (pyStrip (v.getD "")) "orcid.org" = true →
        searchOrcid (pyStrip (v.getD "")).data = none →
        (e ≠ "" → clean_orcid_field v e true = (pyStrip e, false))
        ∧ clean_orcid_field v e false = ("", false))
    ∧ (∀ v e, containsSubstr (pyStrip (v.getD "")) "orcid.org" = false →
        isOrcidShape (pyStrip (v.getD "")).data = false →
        (e ≠ "" → clean_orcid_field v e true = (pyStrip e, false))
        ∧ clean_orcid_field v e false = ("", false))
    ∧ (∀ p : RawProfile, (standardize_researcher_profile p false).2 = false →
        cleanUniversityProfiles true [p] = []) := by
  refine ⟨fun e fb => rfl, fun e fb => rfl, rfl, rfl, ?_, ?_, ?_, ?_, ?_⟩
  · intro v e fb m h1 h2
    simp [clean_orcid_field, h1, h2]
  · intro v e fb h1 h2
    simp [clean_orcid_field, h1, h2]
  · intro v e h1 h2
    constructor
    · intro he
      simp [clean_orcid_field, h1, h2, bne_iff_ne, he]
    · simp [clean_orcid_field, h1, h2]
  · intro v e h1 h2
    constructor
    · intro he
      simp [clean_orcid_field, h1, h2, bne_iff_ne, he]
    · simp [clean_orcid_field, h1, h2]
  · intro p h
    simp [cleanUniversityProfiles, h]

/-- C2 witness: the invalid-value rules applied at "garbage"/"x@y.com". -/
theorem c2_orcid_rule_witness :
    containsSubstr (pyStrip ((some "garbage" : Option String).getD "")) "orcid.org" = false
    ∧ isOrcidShape (pyStrip ((some "garbage" : Option String).getD "")).data = false
    ∧ ("x@y.com" : String) ≠ ""
    ∧ clean_orcid_field (some "garbage") "x@y.com" true = (pyStrip "x@y.com", false)
    ∧ clean_orcid_field (some "garbage") "x@y.com" false = ("", false)
    ∧ (standardize_researcher_profile {} false).2 = false
    ∧ cleanUniversityProfiles true [{}] = [] := by
  refine ⟨by decide, by decide, by decide, ?_, ?_, by decide, ?_⟩
  · exact (c2_orcid_rule.2.2.2.2.2.2.2.1 (some "garbage") "x@y.com"
      (by decide) (by decide)).1 (by decide)
  · exact (c2_orcid_rule.2.2.2.2.2.2.2.1 (some "garbage") "x@y.com"
      (by decide) (by decide)).2
  · exact c2_orcid_rule.2.2.2.2.2.2.2.2 {} (by decide)

/-- C6: the claim's "survives ⟹ appears" direction is false of the code:
dict assignment under the normalized key is last-writer-wins, so the group
"U tag" — whose sole profile has a valid ORCID and survives strict-mode
filtering — is overwritten by the later group "U" (both keys normalize to
"U") and its entry is entirely absent from the output. -/
theorem c6_overwrite_counterexample :
    cleanUniversityProfiles true [{ orcid := some (some "0000-0001-2345-6789") }] ≠ []
    ∧ processGroup true
        ("U tag", ⟨1, some [{ orcid := some (some "0000-0001-2345-6789") }]⟩)
        = some ("U", 1,
            cleanUniversityProfiles true [{ orcid := some (some "0000-0001-2345-6789") }])
    ∧ clean_and_standardize_data true
        [("U tag", ⟨1, some [{ orcid := some (some "0000-0001-2345-6789") }]⟩),
         ("U", ⟨2, some [{ orcid := some (some "0000-0001-2345-6789") }]⟩)]
        = [("U", 2,
            cleanUniversityProfiles true [{ orcid := some (some "0000-0001-2345-6789") }])]
    ∧ ("U", (1 : Int),
        cleanUniversityProfiles true [{ orcid := some (some "0000-0001-2345-6789") }])
        ∉ clean_and_standardize_data true
          [("U tag", ⟨1, some [{ orcid := some (some "0000-0001-2345-6789") }]⟩),
           ("U", ⟨2, some [{ orcid := some (some "0000-0001-2345-6789") }]⟩)] := by
  refine ⟨by decide, by decide, by decide, by decide⟩

/-- C6 (amended): every output entry is the `processGroup` image of some
input group, hence has at least one surviving profile; a group with a
surviving profile appears in the output provided no later group resolves to
the same normalized key; a group with no surviving profile leaves the
output unchanged, so it is entirely absent — in particular, in strict mode,
a group in which no profile has a real ORCID. -/
theorem c6_group_presence_amended (ii : Bool) :
    (∀ (data : List (String × UniversityData)) e,
        e ∈ clean_and_standardize_data ii data →
        ∃ k ud, (k, ud) ∈ data ∧ processGroup ii (k, ud) = some e)
    ∧ (∀ (data : List (String × UniversityData)) e,
        e ∈ clean_and_standardize_data ii data → e.2.2 ≠ [])
    ∧ (∀ pre post k ud nk (v : Int × List CleanProfile),
        processGroup ii (k, ud) = some (nk, v) →
        (∀ k' ud' v', (k', ud') ∈ post → processGroup ii (k', ud') ≠ some (nk, v')) →
        (nk, v) ∈ clean_and_standardize_data ii (pre ++ (k, ud) :: post))
    ∧ (∀ pre post k ud, processGroup ii (k, ud) = none →
        clean_and_standardize_data ii (pre ++ (k, ud) :: post)
          = clean_and_standardize_data ii (pre ++ post))
    ∧ (∀ k ud items, ud.extracted_items = some items →
        (∀ p ∈ items, (standardize_researcher_profile p false).2 = false) →
        processGroup true (k, ud) = none) := by
  refine ⟨?_, ?_, ?_, ?_, ?_⟩
  · intro data e he
    rcases mem_cleanFold data [] he with h | h
    · simp at h
    · exact h
  · intro data e he
    rcases mem_cleanFold data [] he with h | ⟨k, ud, -, hp⟩
    · simp at h
    · exact processGroup_some_ne_nil hp
  · intro pre post k ud nk v hpg hpost
    simp only [clean_and_standardize_data, List.foldl_append, List.foldl_cons]
    apply mem_cleanFold_preserved post _ ?_ hpost
    simp only [cleanInsertStep, hpg]
    exact mem_dictInsert_self _ _ _
  · intro pre post k ud h
    simp only [clean_and_standardize_data, List.foldl_append, List.foldl_cons]
    have hstep : cleanInsertStep ii (List.foldl (cleanInsertStep ii) [] pre) (k, ud)
        = List.foldl (cleanInsertStep ii) [] pre := by
      simp [cleanInsertStep, h]
    rw [hstep]
  · intro k ud items hext hall
    have hnil : cleanUniversityProfiles true items = [] := by
      rw [cleanUniversityProfiles, List.filterMap_eq_nil_iff]
      intro p hp
      simp [hall p hp]
    simp [processGroup, hext, hnil]

/-- C6 witness: the amended rules applied at concrete groups. -/
theorem c6_group_presence_amended_witness :
    (∃ k ud, (k, ud) ∈ [("U", (⟨2, some [{ orcid := some (some "0000-0001-2345-6789") }]⟩
          : UniversityData))]
        ∧ processGroup true (k, ud) = some ("U", 2,
            cleanUniversityProfiles true [{ orcid := some (some "0000-0001-2345-6789") }]))
    ∧ ("U", (2 : Int),
        cleanUniversityProfiles true [{ orcid := some (some "0000-0001-2345-6789") }]).2.2
        ≠ []
    ∧ ("U", (1 : Int),
        cleanUniversityProfiles true [{ orcid := some (some "0000-0001-2345-6789") }])
        ∈ clean_and_standardize_data true
          [("U tag", ⟨1, some [{ orcid := some (some "0000-0001-2345-6789") }]⟩)]
    ∧ clean_and_standardize_data true [("X", ⟨0, some []⟩)]
        = clean_and_standardize_data true []
    ∧ processGroup true ("X", ⟨0, some []⟩) = none := by
  refine ⟨?_, ?_, ?_, ?_, ?_⟩
  · exact (c6_group_presence_amended true).1
      [("U", ⟨2, some [{ orcid := some (some "0000-0001-2345-6789") }]⟩)]
      ("U", 2, cleanUniversityProfiles true [{ orcid := some (some "0000-0001-2345-6789") }])
      (by decide)
  · exact (c6_group_presence_amended true).2.1
      [("U", ⟨2, some [{ orcid := some (some "0000-0001-2345-6789") }]⟩)]
      ("U", 2, cleanUniversityProfiles true [{ orcid := some (some "0000-0001-2345-6789") }])
      (by decide)
  · exact (c6_group_presence_amended true).2.2.1 [] [] "U tag"
      ⟨1, some [{ orcid := some (some "0000-0001-2345-6789") }]⟩ "U"
      (1, cleanUniversityProfiles true [{ orcid := some (some "0000-0001-2345-6789") }])
      (by decide) (by intro k' ud' v' hm; simp at hm)
  · exact (c6_group_presence_amended true).2.2.2.1 [] [] "X" ⟨0, some []⟩ (by decide)
  · exact (c6_group_presence_amended true).2.2.2.2 "X" ⟨0, some []⟩ [] rfl
      (by intro p hp; simp at hp)

/-- C7: the claim that every field defaults to its empty value whenever it
is absent from the source is false for `orcid`: with the orcid key absent,
email fallback enabled and a nonempty cleaned email, the output `orcid`
holds the email, not `""`. -/
theorem c7_orcid_fallback_counterexample :
    ({ email := some (some "a@b.com") } : RawProfile).orcid = none
    ∧ (standardize_researcher_profile { email := some (some "a@b.com") } true).1.orcid
        = "a@b.com"
    ∧ ("a@b.com" : String) ≠ "" := by
  exact ⟨rfl, by decide, by decide⟩

/-- C7 (amended): every output profile carries all nine schema fields; the
eight fields other than `orcid` default to their empty value whenever the
source key is absent, and `orcid` defaults to `""` when its key is absent
provided email fallback is disabled or the cleaned email is empty. -/
theorem c7_schema_defaults_amended (p : RawProfile) (fb : Bool) :
    (p.website = none → (standardize_researcher_profile p fb).1.website = "")
    ∧ (p.full_name = none → (standardize_researcher_profile p fb).1.full_name = "")
    ∧ (p.title = none → (standardize_researcher_profile p fb).1.title = "")
    ∧ (p.org_unit = none → (standardize_researcher_profile p fb).1.org_unit = "")
    ∧ (p.telephone = none → (standardize_researcher_profile p fb).1.telephone = "")
    ∧ (p.email = none → (standardize_researcher_profile p fb).1.email = "")
    ∧ (p.brief_introduction = none →
        (standardize_researcher_profile p fb).1.introduction = "")
    ∧ (p.tag = none → (standardize_researcher_profile p fb).1.tag = [])
    ∧ (p.orcid = none → fb = false →
        (standardize_researcher_profile p fb).1.orcid = "")
    ∧ (p.orcid = none → (standardize_researcher_profile p fb).1.email = "" →
        (standardize_researcher_profile p fb).1.orcid = "") := by
  refine ⟨?_, ?_, ?_, ?_, ?_, ?_, ?_, ?_, ?_, ?_⟩
  · intro h; simp [standardize_researcher_profile, h]
  · intro h; simp [standardize_researcher_profile, h]
  · intro h; simp [standardize_researcher_profile, h]
  · intro h; simp [standardize_researcher_profile, h]
  · intro h; simp [standardize_researcher_profile, h]
  · intro h; simp [standardize_researcher_profile, h]
  · intro h; simp [standardize_researcher_profile, h]
  · intro h; simp [standardize_researcher_profile, h]
  · intro h hfb
    subst hfb
    simp [standardize_researcher_profile, h, clean_orcid_none_fallback]
  · intro h he
    simp only [standardize_researcher_profile, h] at he ⊢
    rw [Option.getD_none, clean_orcid_none_fallback, he]
    simp

/-- C7 witness: the defaults realized on the all-absent source record. -/
theorem c7_schema_defaults_witness :
    (standardize_researcher_profile {} false).1.website = ""
    ∧ (standardize_researcher_profile {} false).1.full_name = ""
    ∧ (standardize_researcher_profile {} false).1.title = ""
    ∧ (standardize_researcher_profile {} false).1.org_unit = ""
    ∧ (standardize_researcher_profile {} false).1.telephone = ""
    ∧ (standardize_researcher_profile {} false).1.email = ""
    ∧ (standardize_researcher_profile {} false).1.introduction = ""
    ∧ (standardize_researcher_profile {} false).1.tag = []
    ∧ (standardize_researcher_profile {} false).1.orcid = "" := by
  have h := c7_schema_defaults_amended {} false
  exact ⟨h.1 rfl, h.2.1 rfl, h.2.2.1 rfl, h.2.2.2.1 rfl, h.2.2.2.2.1 rfl,
    h.2.2.2.2.2.1 rfl, h.2.2.2.2.2.2.1 rfl, h.2.2.2.2.2.2.2.1 rfl,
    h.2.2.2.2.2.2.2.2.1 rfl rfl⟩

/-- C10: in every output profile, `org_unit` — like `introduction` — is,
character by character, the cleaned source value with each embedded newline
replaced by a space (positions and all other characters preserved); hence
neither field contains a newline. -/
theorem c10_org_unit_newline (p : RawProfile) (fb : Bool) :
    ((standardize_researcher_profile p fb).1.org_unit).data
      = (p.org_unit.elim "" clean_string_field).data.map
          (fun c => if c = '\n' then ' ' else c)
    ∧ ((standardize_researcher_profile p fb).1.introduction).data
      = (p.brief_introduction.elim "" clean_string_field).data.map
          (fun c => if c = '\n' then ' ' else c)
    ∧ '\n' ∉ ((standardize_researcher_profile p fb).1.org_unit).data
    ∧ '\n' ∉ ((standardize_researcher_profile p fb).1.introduction).data := by
  refine ⟨?_, ?_, ?_, ?_⟩
  · rcases h : p.org_unit with _ | v <;>
      simp only [standardize_researcher_profile, h, Option.elim] <;> rfl
  · rcases h : p.brief_introduction with _ | v <;>
      simp only [standardize_researcher_profile, h, Option.elim] <;> rfl
  · rcases h : p.org_unit with _ | v
    · simp only [standardize_researcher_profile, h]
      exact by decide
    · simp only [standardize_researcher_profile, h]
      exact not_mem_replaceNewlines _
  · rcases h : p.brief_introduction with _ | v
    · simp only [standardize_researcher_profile, h]
      exact by decide
    · simp only [standardize_researcher_profile, h]
      exact not_mem_replaceNewlines _

end IEAData
